import Mathlib

/-!
Verification development for the VoteSecure online-voting server
(`server.js`).  The definitions below are a shallow embedding of the
core pipeline: the OTP ledger (`/api/otp/send`, `/api/otp/verify`),
the registration pipeline (`/api/voter/register`), and the ballot
casting transaction (`/api/voter/vote`).

Modelling conventions:
* JavaScript numbers that hold face-descriptor components are embedded
  as exact rationals (`ℚ`); all comparisons the source performs on
  `Math.sqrt` values are embedded on the squared values (`Math.sqrt`
  is strictly monotone on nonnegative arguments, so `<` comparisons
  are preserved by squaring; the sentinel `999` becomes `998001` and
  the threshold `0.45` becomes `0.2025`).
* Timestamps (`Date.now()`, `new Date(...).getTime()`) are embedded
  as integers (milliseconds); calendar fields of a `Date` are carried
  explicitly by a `JsDate` record.
* Randomness (`crypto.randomInt`, `crypto.randomBytes`) is embedded by
  passing the drawn values as explicit arguments.
-/

namespace VoteSecure

/-! ## OTP ledger (`server.js` lines 153–175) -/

/-- An OTP record as stored in `otpStore` (line 159). -/
structure OtpRec where
  otp : String
  expiresAt : Int
  verified : Bool
  attempts : Nat
deriving Repr, DecidableEq

/-- The integer drawn by `crypto.randomInt(100000, 999999)` (line 158)
when the underlying uniform draw is `r`: Node's `randomInt` returns a
uniform integer in the half-open range `[100000, 999999)`, i.e.
`100000 + r % 899999` for a uniform `r`. -/
def otpValue (r : Nat) : Nat := 100000 + r % 899999

/-- Decimal digits of a natural number, least significant first.
Embeds the digit sequence produced by JavaScript
`Number.prototype.toString()` on a nonnegative integer (line 158). -/
def natDigitsRev (n : Nat) : List Nat :=
  if _h : n < 10 then [n]
  else n % 10 :: natDigitsRev (n / 10)
decreasing_by exact Nat.div_lt_self (by omega) (by omega)

/-- JavaScript `Number.prototype.toString()` for a nonnegative integer:
decimal notation, most significant digit first, no leading zeros. -/
def jsNatToString (n : Nat) : String :=
  String.mk ((natDigitsRev n).reverse.map (fun d => Char.ofNat (48 + d)))

/-- The OTP code string produced at line 158:
`crypto.randomInt(100000,999999).toString()`. -/
def otpCodeStr (r : Nat) : String := jsNatToString (otpValue r)

/-- The record stored by `/api/otp/send` (line 159):
`{otp, expiresAt: Date.now()+5*60*1000, verified:false, attempts:0}`. -/
def sendOtp (nowMs : Int) (r : Nat) : OtpRec :=
  { otp := otpCodeStr r
    expiresAt := nowMs + 5 * 60 * 1000
    verified := false
    attempts := 0 }

/-- The JSON body returned by `/api/otp/send` (line 161). -/
structure OtpSendResponse where
  success : Bool
  message : String
  demoOtp : Option String
deriving Repr, DecidableEq

/-- Embeds the response construction of the `/api/otp/send` handler
(line 161): `res.json({success:true, message:..., demoOtp:otp})`.
The server computes an `isProd` flag from `NODE_ENV` (line 103), so we
carry it in the signature, but the handler never consults it: the
`demoOtp` field is filled in unconditionally. -/
def otpSendResponse (_isProd : Bool) (maskedTail otpCode : String) : OtpSendResponse :=
  { success := true
    message := "OTP sent to +91 ****" ++ maskedTail
    demoOtp := some otpCode }

/-- Whitespace as far as `String.prototype.trim()` is concerned (the
code points relevant to this development). -/
def isWs (c : Char) : Bool := c = ' ' ∨ c = '\t' ∨ c = '\n' ∨ c = '\r'

/-- JavaScript `String.prototype.trim()`: strip leading and trailing
whitespace (line 172, `otp.trim()`). -/
def jsTrim (s : String) : String :=
  String.mk (((s.data.dropWhile isWs).reverse.dropWhile isWs).reverse)

/-- Outcomes of the `/api/otp/verify` handler (lines 164–175). -/
inductive OtpVerifyResult where
  | notFound
  | expired
  | tooManyAttempts
  | wrongOtp (triesLeft : Int)
  | verifiedOk
deriving Repr, DecidableEq

/-- The `/api/otp/verify` handler (lines 164–175), as a function of the
record currently stored for the phone, the submitted code, and the
current time.  Returns the result together with the record left in the
store for that phone afterwards (`none` = deleted).  The in-place
`rec.attempts++` mutation of the stored object is embedded by returning
the updated record. -/
def verifyOtp (stored : Option OtpRec) (code : String) (nowMs : Int) :
    OtpVerifyResult × Option OtpRec :=
  match stored with
  | none => (.notFound, none)
  | some rec0 =>
    if nowMs > rec0.expiresAt then (.expired, none)
    else
      let rec1 : OtpRec := { rec0 with attempts := rec0.attempts + 1 }
      if rec1.attempts > 5 then (.tooManyAttempts, none)
      else if rec1.otp ≠ jsTrim code then
        (.wrongOtp (5 - (rec1.attempts : Int)), some rec1)
      else (.verifiedOk, some { rec1 with verified := true })

/-- `k` successive `/api/otp/verify` calls with the same submitted code,
threading the stored record through. -/
def repeatVerify (code : String) (nowMs : Int) : Nat → Option OtpRec → Option OtpRec
  | 0, s => s
  | k + 1, s => repeatVerify code nowMs k (verifyOtp s code nowMs).2

/-! ## Voter records and the registration pipeline (lines 180–226) -/

/-- A voter record as stored in `voters.json` (line 222).  The fields
`address`, `proofType` and `registeredAt` are stored by the source but
never read by any core decision, so they are omitted here.  A missing
or malformed stored face descriptor is represented by a list whose
length is not 128 (the source skips such records with the same
`length !== 128` test it applies to present ones). -/
structure Voter where
  id : String
  voterId : String
  name : String
  dob : String
  phone : String
  status : String
  faceDescriptor : List ℚ
deriving Repr, DecidableEq

/-- Which duplicate check fired (`type` field of the 409 response,
lines 208/211/219). -/
inductive DupKind where
  | phone
  | nameDob
  | face
deriving Repr, DecidableEq

/-- Outcomes of the `/api/voter/register` handler, in source order
(lines 187–225). -/
inductive RegResult where
  | invalidName
  | invalidDOB
  | invalidPhone
  | invalidFaceData
  | degenerateFace
  | phoneNotVerified
  | proofNotVerified
  | duplicate (kind : DupKind) (existingVoterId existingName : String)
  | success (voterId name : String)
deriving Repr, DecidableEq

/-- Squared Euclidean distance, embedding `euclidean` (lines 145–148).
The source returns the sentinel `999` when either vector is absent or
the lengths differ, and `Math.sqrt(s)` otherwise; since every
comparison made on its result is a `<` between nonnegative values, we
embed the squares: `999` becomes `998001` and the loop sum `s` is
returned unrooted. -/
def euclidSq (a b : List ℚ) : ℚ :=
  if a.length ≠ b.length then 998001
  else (a.zip b).foldl (fun s p => s + (p.1 - p.2) * (p.1 - p.2)) 0

/-- The face-match threshold `0.45` of line 217, squared. -/
def faceThresholdSq : ℚ := 0.2025

/-- `true` when a stored voter's face descriptor passes the loop guard
`!v.faceDescriptor || v.faceDescriptor.length !== 128` (line 215). -/
def wfFace (v : Voter) : Bool := v.faceDescriptor.length == 128

/-- Squared distance from the candidate descriptor to a stored voter. -/
def dsq (cand : List ℚ) (v : Voter) : ℚ := euclidSq cand v.faceDescriptor

/-- The face-match loop of lines 213–218, on squared distances:
`let faceMatch=null, minD=999; for v of voters { ... }`, threading the
accumulator `(faceMatch, minD)`. -/
def faceScan (cand : List ℚ) : List Voter → Option Voter × ℚ → Option Voter × ℚ
  | [], acc => acc
  | v :: vs, acc =>
    if wfFace v then
      if dsq cand v < acc.2 then
        faceScan cand vs
          ((if dsq cand v < faceThresholdSq then some v else acc.1), dsq cand v)
      else faceScan cand vs acc
    else faceScan cand vs acc

/-- Just the running-minimum component of the loop of lines 213–218. -/
def runMinSq (cand : List ℚ) : List Voter → ℚ → ℚ
  | [], m => m
  | v :: vs, m =>
    runMinSq cand vs (if wfFace v ∧ dsq cand v < m then dsq cand v else m)

/-- The minimum squared distance from the candidate descriptor to any
well-formed stored descriptor (`998001`, i.e. `999²`, when there is
none below the sentinel). -/
def minFaceDistSq (cand : List ℚ) (voters : List Voter) : ℚ :=
  runMinSq cand voters 998001

/-- Modelled from the spec: the nearest-neighbour face collision — the
first stored voter (in iteration order) achieving the minimum distance,
reported exactly when that minimum is strictly below the threshold.
Stated on squared distances like the rest of the development. -/
def nearestFaceMatch (cand : List ℚ) (voters : List Voter) : Option Voter :=
  if minFaceDistSq cand voters < faceThresholdSq then
    voters.find? (fun v => wfFace v && (dsq cand v == minFaceDistSq cand voters))
  else none

/-- `Math.min` on two numbers: the smaller value. -/
def rmin (a b : ℚ) : ℚ := if a ≤ b then a else b

/-- `Math.max` on two numbers: the larger value. -/
def rmax (a b : ℚ) : ℚ := if a ≤ b then b else a

/-- `Math.min(...xs)` over a nonempty list (line 196; the 128-length
check has already passed when it is evaluated). -/
def listMin : List ℚ → ℚ
  | [] => 0
  | x :: xs => xs.foldl rmin x

/-- `Math.max(...xs)` over a nonempty list (line 196). -/
def listMax : List ℚ → ℚ
  | [] => 0
  | x :: xs => xs.foldl rmax x

/-- The nibble-to-character table used by `Buffer.toString('hex')`. -/
def hexDigitChar (n : Nat) : Char := "0123456789abcdef".data.getD n '0'

/-- Lower-case hexadecimal rendering of one byte. -/
def byteToHexChars (b : Nat) : List Char := [hexDigitChar (b / 16), hexDigitChar (b % 16)]

/-- Voter-ID minting (line 221):
`'VTR-' + crypto.randomBytes(3).toString('hex').toUpperCase()`, as a
function of the three random bytes drawn. -/
def mintVoterId (bytes : List Nat) : String :=
  "VTR-" ++ String.mk (((bytes.map byteToHexChars).flatten).map Char.toUpper)

/-- The `/api/voter/register` handler (lines 180–226) as a function of
the sanitised inputs, the OTP store, the stored voter collection and
the three random ID bytes.  Inputs are the post-sanitisation values
`cName`, `cDob`, `cPhone` of lines 182–184 (sanitisation itself is
upstream string cleaning and not part of any claim); `cAddr` and
`proofType` are stored but never read, so they are omitted.  The
`isNaN`/`isFinite` component of the line 192 check is vacuous for
exact rationals.  Only the response is returned; the source persists
the new voter and deletes the OTP record exactly on the `success`
path (lines 222–224). -/
def registerVoter (cName cDob cPhone : String) (faceDescriptor : List ℚ)
    (proofVerified : Bool) (otpStore : String → Option OtpRec)
    (voters : List Voter) (idBytes : List Nat) : RegResult :=
  if cName = "" ∨ cName.length < 2 then .invalidName
  else if cDob = "" then .invalidDOB
  else if cPhone.length < 10 then .invalidPhone
  else if faceDescriptor.length ≠ 128 then .invalidFaceData
  else
    let fdMin := listMin faceDescriptor
    let fdMax := listMax faceDescriptor
    let fdMean := faceDescriptor.foldl (· + ·) 0 / (faceDescriptor.length : ℚ)
    if fdMax - fdMin < 0.02 ∨ fdMean < 0.005 then .degenerateFace
    else
      match otpStore cPhone with
      | none => .phoneNotVerified
      | some otpRec =>
        if ¬ otpRec.verified then .phoneNotVerified
        else if ¬ proofVerified then .proofNotVerified
        else
          match voters.find? (fun v => v.phone == cPhone) with
          | some v => .duplicate .phone v.voterId v.name
          | none =>
            match voters.find? (fun v =>
                v.name.toLower == cName.toLower && v.dob == cDob) with
            | some v => .duplicate .nameDob v.voterId v.name
            | none =>
              match (faceScan faceDescriptor voters (none, 998001)).1 with
              | some v => .duplicate .face v.voterId v.name
              | none => .success (mintVoterId idBytes) cName

/-! ## Elections and ballot casting (lines 265–291) -/

/-- A candidate inside an election record; `party`, `symbol` and
`color` are display-only. -/
structure Candidate where
  id : String
  name : String
deriving Repr, DecidableEq

/-- An election record as read from `elections.json`.  `startDate` and
`endDate` are carried as epoch milliseconds (the value of
`new Date(el.startDate).getTime()`); `title`/`description`/`createdAt`
are display-only and omitted. -/
structure Election where
  id : String
  status : String
  startDate : Int
  endDate : Int
  minAge : Int
  maxAge : Int
  candidates : List Candidate
deriving Repr, DecidableEq

/-- A vote record as appended to `votes.json` (line 288). -/
structure Vote where
  id : String
  electionId : String
  voterId : String
  voterName : String
  candidateId : String
  votedAt : String
deriving Repr, DecidableEq

/-- The fields of a JavaScript `Date` the vote handler consults:
`getTime()` (for the window comparison of line 272, embedded as `ms`)
and `getFullYear()/getMonth()/getDate()` (lines 279–280). -/
structure JsDate where
  ms : Int
  year : Int
  month : Int
  day : Int
deriving Repr, DecidableEq

/-- Outcomes of the `/api/voter/vote` handler, in source order
(lines 265–291). -/
inductive VoteResult where
  | electionNotFound
  | electionNotActive
  | electionNotOpen
  | missingDOB
  | ageRestricted (age : Int)
  | alreadyVoted
  | invalidCandidate
  | success (candidateName : String)
deriving Repr, DecidableEq

/-- Whole-year age computation of lines 279–280:
`age = now.getFullYear() - dob.getFullYear()`, decremented when the
birthday has not yet been reached this year. -/
def computeAge (now dob : JsDate) : Int :=
  let base := now.year - dob.year
  if now.month < dob.month ∨ (now.month = dob.month ∧ now.day < dob.day) then base - 1
  else base

/-- The age-restriction block of lines 275–283, returning the failure
it produces, if any.  `parse` embeds `new Date(vr.dob)`.  The source's
`if(!vr?.dob)` covers both a missing voter record and an empty stored
DOB string. -/
def ageGate (el : Election) (voters : List Voter) (vid : String) (now : JsDate)
    (parse : String → JsDate) : Option VoteResult :=
  if el.minAge > 0 ∨ el.maxAge > 0 then
    match voters.find? (fun v => v.id == vid) with
    | none => some .missingDOB
    | some vr =>
      if vr.dob = "" then some .missingDOB
      else
        let age := computeAge now (parse vr.dob)
        if el.minAge > 0 ∧ age < el.minAge then some (.ageRestricted age)
        else if el.maxAge > 0 ∧ age > el.maxAge then some (.ageRestricted age)
        else none
  else none

/-- The `/api/voter/vote` handler (lines 265–291) as a function of the
sanitised election and candidate ids, the session voter (`vid` is
`req.session.voter.id`, `voterName` its name), the stored collections,
and the current time.  `freshId`/`nowIso` stand for the `uuidv4()` and
`new Date().toISOString()` drawn at line 288.  Returns the response
together with the votes collection persisted afterwards. -/
def castVote (elId cId vid voterName freshId nowIso : String)
    (elections : List Election) (votes : List Vote) (voters : List Voter)
    (now : JsDate) (parse : String → JsDate) : VoteResult × List Vote :=
  match elections.find? (fun e => e.id == elId) with
  | none => (.electionNotFound, votes)
  | some el =>
    if el.status ≠ "active" then (.electionNotActive, votes)
    else if now.ms < el.startDate ∨ now.ms > el.endDate then (.electionNotOpen, votes)
    else
      match ageGate el voters vid now parse with
      | some r => (r, votes)
      | none =>
        if (votes.find? (fun v => v.electionId == elId && v.voterId == vid)).isSome
        then (.alreadyVoted, votes)
        else
          match el.candidates.find? (fun c => c.id == cId) with
          | none => (.invalidCandidate, votes)
          | some c =>
            (.success c.name,
              votes ++ [{ id := freshId, electionId := elId, voterId := vid,
                          voterName := voterName, candidateId := cId,
                          votedAt := nowIso }])

/-! ## Concrete fixtures used by evaluation witnesses -/

/-- A well-formed, non-degenerate candidate face descriptor. -/
def wFd : List ℚ := 1 :: List.replicate 127 0

/-- A stored voter whose descriptor is far from `wFd`
(squared distance 1). -/
def wVoterA : Voter :=
  ⟨"idA", "VTR-A", "Aann", "1990-01-01", "1111111111", "active",
    List.replicate 128 0⟩

/-- A stored, *inactive* voter whose descriptor is close to `wFd`
(squared distance 0.01, below the 0.2025 squared threshold). -/
def wVoterB : Voter :=
  ⟨"idB", "VTR-B", "Bina", "1991-02-02", "2222222222", "inactive",
    (0.9 : ℚ) :: List.replicate 127 0⟩

/-- An OTP store holding a verified record for phone `9876543210`. -/
def wStore : String → Option OtpRec :=
  fun p => if p = "9876543210" then some ⟨"100000", 300000, true, 1⟩ else none

/-! ## Lemmas about the OTP ledger -/

/-- Reduction of `verifyOtp` on a present record. -/
theorem verifyOtp_some (rec0 : OtpRec) (code : String) (nowMs : Int) :
    verifyOtp (some rec0) code nowMs
      = if nowMs > rec0.expiresAt then (.expired, none)
        else if rec0.attempts + 1 > 5 then (.tooManyAttempts, none)
        else if rec0.otp ≠ jsTrim code then
          (.wrongOtp (5 - ((rec0.attempts + 1 : Nat) : Int)),
           some { rec0 with attempts := rec0.attempts + 1 })
        else (.verifiedOk,
          some { rec0 with attempts := rec0.attempts + 1, verified := true }) := rfl

/-- One wrong-code verify call within the expiry window and the attempt
limit: reports the remaining tries and leaves the record with the
attempt counter bumped. -/
theorem verifyOtp_wrong_step (rec0 : OtpRec) (wrong : String) (nowMs : Int)
    (hw : jsTrim wrong ≠ rec0.otp) (hn : nowMs ≤ rec0.expiresAt)
    (ha : rec0.attempts + 1 ≤ 5) :
    verifyOtp (some rec0) wrong nowMs
      = (.wrongOtp (5 - ((rec0.attempts + 1 : Nat) : Int)),
         some { rec0 with attempts := rec0.attempts + 1 }) := by
  rw [verifyOtp_some]
  rw [if_neg (by omega), if_neg (by omega),
    if_pos (by simpa using fun h => hw h.symm)]

/-- Iterated wrong-code verify calls keep the record and accumulate the
attempt counter, as long as the limit is not exceeded. -/
theorem repeatVerify_wrong (wrong : String) (nowMs : Int) :
    ∀ (k : Nat) (rec0 : OtpRec), jsTrim wrong ≠ rec0.otp → nowMs ≤ rec0.expiresAt →
      rec0.attempts + k ≤ 5 →
      repeatVerify wrong nowMs k (some rec0)
        = some { rec0 with attempts := rec0.attempts + k }
  | 0, rec0, _, _, _ => by simp [repeatVerify]
  | k + 1, rec0, hw, hn, ha => by
    have hstep : repeatVerify wrong nowMs (k + 1) (some rec0)
        = repeatVerify wrong nowMs k (verifyOtp (some rec0) wrong nowMs).2 := rfl
    rw [hstep, verifyOtp_wrong_step rec0 wrong nowMs hw hn (by omega)]
    rw [repeatVerify_wrong wrong nowMs k { rec0 with attempts := rec0.attempts + 1 }
      hw hn (by simp; omega)]
    have harith : rec0.attempts + 1 + k = rec0.attempts + (k + 1) := by omega
    simp [harith]

/-- Claim C2 — `verifyOtp` succeeds iff the submitted code equals the
stored one, the call is within the 5-minute expiry, and it is at most
the 5th attempt on the record; moreover, starting from a fresh record,
the first wrong attempt reports 4 tries left, and after 5 wrong
attempts the 6th call fails `TooManyAttempts` and deletes the record
even when the submitted code is correct. -/
theorem verifyOtp_attempt_limit (rec0 : OtpRec) (code wrong : String) (nowMs : Int) :
    ((verifyOtp (some rec0) code nowMs).1 = .verifiedOk ↔
      jsTrim code = rec0.otp ∧ nowMs ≤ rec0.expiresAt ∧ rec0.attempts + 1 ≤ 5)
    ∧ (rec0.attempts = 0 → nowMs ≤ rec0.expiresAt → jsTrim wrong ≠ rec0.otp →
        (verifyOtp (some rec0) wrong nowMs).1 = .wrongOtp 4
        ∧ verifyOtp (repeatVerify wrong nowMs 5 (some rec0)) code nowMs
            = (.tooManyAttempts, none)) := by
  constructor
  · rw [verifyOtp_some]
    by_cases hexp : nowMs > rec0.expiresAt
    · rw [if_pos hexp]; simp; omega
    · rw [if_neg hexp]
      by_cases hatt : rec0.attempts + 1 > 5
      · rw [if_pos hatt]; simp; omega
      · rw [if_neg hatt]
        by_cases hc : rec0.otp ≠ jsTrim code
        · rw [if_pos hc]
          simp only [reduceCtorEq, false_iff, not_and]
          intro h; exact absurd h.symm hc
        · rw [if_neg hc]
          push_neg at hc
          simp [hc.symm]
          omega
  · intro h0 hn hw
    constructor
    · rw [verifyOtp_wrong_step rec0 wrong nowMs hw hn (by omega)]
      simp [h0]
    · rw [repeatVerify_wrong wrong nowMs 5 rec0 hw hn (by omega), h0]
      rw [verifyOtp_some]
      rw [if_neg (by simpa using hn)]
      simp

/-- Witness for C2 at a concrete fresh record. -/
theorem verifyOtp_attempt_limit_witness :
    (verifyOtp (some ⟨"100000", 300000, false, 0⟩) "999999" 0).1 = .wrongOtp 4
    ∧ verifyOtp (repeatVerify "999999" 0 5 (some ⟨"100000", 300000, false, 0⟩))
          "100000" 0 = (.tooManyAttempts, none) :=
  (verifyOtp_attempt_limit ⟨"100000", 300000, false, 0⟩ "100000" "999999" 0).2
    rfl (by decide) (by decide)

/-! ## The sent-OTP response (claims C4 and C5) -/

/-- Counterexample for C5 — with the production flag set, the
`/api/otp/send` response still carries the generated code in its
`demoOtp` field, and two sends that differ only in the generated code
produce distinguishable responses. -/
theorem otp_send_leaks_cex :
    (otpSendResponse true "3210" "123456").demoOtp = some "123456"
    ∧ otpSendResponse true "3210" "123456" ≠ otpSendResponse true "3210" "654321" := by
  constructor
  · rfl
  · intro h
    exact absurd (congrArg OtpSendResponse.demoOtp h) (by decide)

/-- Amended C5 — the handler places the cleartext code in the `demoOtp`
field of every `/api/otp/send` response, in every mode. -/
theorem otp_send_always_demoOtp (isProd : Bool) (maskedTail otpCode : String) :
    (otpSendResponse isProd maskedTail otpCode).demoOtp = some otpCode := rfl

/-- Unfolding `natDigitsRev` below 10. -/
theorem natDigitsRev_small (n : Nat) (h : n < 10) : natDigitsRev n = [n] := by
  unfold natDigitsRev
  rw [dif_pos h]

/-- Unfolding `natDigitsRev` at 10 or above. -/
theorem natDigitsRev_large (n : Nat) (h : 10 ≤ n) :
    natDigitsRev n = n % 10 :: natDigitsRev (n / 10) := by
  conv_lhs => rw [natDigitsRev]
  rw [dif_neg (by omega)]

/-- The six decimal digits of a value in `[100000, 1000000)`. -/
theorem natDigitsRev_six (m : Nat) (h1 : 100000 ≤ m) (h2 : m < 1000000) :
    natDigitsRev m
      = [m % 10, m / 10 % 10, m / 10 / 10 % 10, m / 10 / 10 / 10 % 10,
         m / 10 / 10 / 10 / 10 % 10, m / 10 / 10 / 10 / 10 / 10] := by
  rw [natDigitsRev_large m (by omega), natDigitsRev_large (m / 10) (by omega),
    natDigitsRev_large (m / 10 / 10) (by omega),
    natDigitsRev_large (m / 10 / 10 / 10) (by omega),
    natDigitsRev_large (m / 10 / 10 / 10 / 10) (by omega),
    natDigitsRev_small (m / 10 / 10 / 10 / 10 / 10) (by omega)]

/-- The rendered string of a value in `[100000, 1000000)`: six digit
characters, most significant first. -/
theorem jsNatToString_six (m : Nat) (h1 : 100000 ≤ m) (h2 : m < 1000000) :
    (jsNatToString m).data
      = [Char.ofNat (48 + m / 10 / 10 / 10 / 10 / 10),
         Char.ofNat (48 + m / 10 / 10 / 10 / 10 % 10),
         Char.ofNat (48 + m / 10 / 10 / 10 % 10),
         Char.ofNat (48 + m / 10 / 10 % 10),
         Char.ofNat (48 + m / 10 % 10),
         Char.ofNat (48 + m % 10)] := by
  simp [jsNatToString, natDigitsRev_six m h1 h2]

/-- A value of six decimal digits never renders as `"000000"`: its
leading digit is nonzero. -/
theorem jsNatToString_ne_zeros (m : Nat) (h1 : 100000 ≤ m) (h2 : m < 1000000) :
    jsNatToString m ≠ "000000" := by
  intro h
  have hd := congrArg String.data h
  rw [jsNatToString_six m h1 h2] at hd
  have hzs : ("000000" : String).data = ['0', '0', '0', '0', '0', '0'] := rfl
  rw [hzs] at hd
  have hhead : Char.ofNat (48 + m / 10 / 10 / 10 / 10 / 10) = '0' :=
    (List.cons.injEq _ _ _ _ ▸ hd).1
  obtain ⟨d, hdeq, hd1, hd9⟩ : ∃ d, m / 10 / 10 / 10 / 10 / 10 = d ∧ 1 ≤ d ∧ d ≤ 9 :=
    ⟨_, rfl, by omega, by omega⟩
  rw [hdeq] at hhead
  interval_cases d <;> exact absurd hhead (by decide)

/-- Counterexample for C4 — the code `"000000"` (indeed any code with a
leading zero) can never be produced by the `/api/otp/send` generator:
`crypto.randomInt(100000, 999999)` draws from `[100000, 999999)` and
`toString` prints without leading zeros. -/
theorem otp_code_no_leading_zero_cex : ¬ ∃ r : Nat, otpCodeStr r = "000000" := by
  rintro ⟨r, h⟩
  have h1 : 100000 ≤ otpValue r := by unfold otpValue; omega
  have h2 : otpValue r < 1000000 := by unfold otpValue; omega
  exact jsNatToString_ne_zeros _ h1 h2 h

/-- Amended C4 — the generated code is the plain decimal rendering of a
value uniformly distributed over `[100000, 999998]` (the upper bound of
`crypto.randomInt` is exclusive): always 6 digits, never a leading
zero, and each of the 899999 possible values arises from exactly one
draw of the uniform source. -/
theorem otp_code_range_uniform (r : Nat) :
    (100000 ≤ otpValue r ∧ otpValue r ≤ 999998)
    ∧ (otpCodeStr r).length = 6
    ∧ (otpCodeStr r).data.head? ≠ some '0'
    ∧ (∀ m : Nat, 100000 ≤ m → m ≤ 999998 →
        ∃! k : Nat, k < 899999 ∧ otpValue k = m) := by
  have h1 : 100000 ≤ otpValue r := by unfold otpValue; omega
  have h2 : otpValue r < 1000000 := by unfold otpValue; omega
  have hsix := jsNatToString_six (otpValue r) h1 h2
  refine ⟨⟨h1, by unfold otpValue; omega⟩, ?_, ?_, ?_⟩
  · show (jsNatToString (otpValue r)).data.length = 6
    rw [hsix]
    rfl
  · show ((jsNatToString (otpValue r)).data).head? ≠ some '0'
    rw [hsix]
    simp only [List.head?_cons, ne_eq, Option.some.injEq]
    obtain ⟨d, hdeq, hd1, hd9⟩ :
        ∃ d, otpValue r / 10 / 10 / 10 / 10 / 10 = d ∧ 1 ≤ d ∧ d ≤ 9 :=
      ⟨_, rfl, by omega, by omega⟩
    rw [hdeq]
    interval_cases d <;> decide
  · intro m hm1 hm2
    refine ⟨m - 100000, ⟨by omega, by unfold otpValue; omega⟩, ?_⟩
    intro y hy
    have hy2 := hy.2
    unfold otpValue at hy2
    omega

/-- Witness for C4's amended statement at a concrete draw and value. -/
theorem otp_code_range_uniform_witness :
    (otpCodeStr 5).length = 6 ∧ (∃! k : Nat, k < 899999 ∧ otpValue k = 123456) :=
  ⟨(otp_code_range_uniform 5).2.1,
   (otp_code_range_uniform 5).2.2.2 123456 (by norm_num) (by norm_num)⟩

/-! ## Lemmas about ballot casting -/

/-- The failures the age-restriction block can produce. -/
theorem ageGate_some_shape (el : Election) (voters : List Voter) (vid : String)
    (now : JsDate) (parse : String → JsDate) (r : VoteResult)
    (h : ageGate el voters vid now parse = some r) :
    r = .missingDOB ∨ ∃ a, r = .ageRestricted a := by
  unfold ageGate at h
  split at h
  · split at h
    · exact Or.inl (Option.some.injEq .. ▸ h).symm
    · split at h
      · exact Or.inl (Option.some.injEq .. ▸ h).symm
      · dsimp only at h
        split at h
        · exact Or.inr ⟨_, (Option.some.injEq .. ▸ h).symm⟩
        · split at h
          · exact Or.inr ⟨_, (Option.some.injEq .. ▸ h).symm⟩
          · exact absurd h (by simp)
  · exact absurd h (by simp)

/-- Reduction of `castVote` when the election is found, active, in its
window, and the age gate fires. -/
theorem castVote_reduce_age_some (elId cId vid voterName freshId nowIso : String)
    (elections : List Election) (votes : List Vote) (voters : List Voter)
    (now : JsDate) (parse : String → JsDate) (el : Election) (r : VoteResult)
    (hel : elections.find? (fun e => e.id == elId) = some el)
    (hact : el.status = "active")
    (hopen : ¬(now.ms < el.startDate ∨ now.ms > el.endDate))
    (hage : ageGate el voters vid now parse = some r) :
    castVote elId cId vid voterName freshId nowIso elections votes voters now parse
      = (r, votes) := by
  unfold castVote
  rw [hel]
  simp only [hact, ne_eq, not_true_eq_false, if_false, if_neg hopen, hage]

/-- Reduction of `castVote` when the election is found, active, in its
window, and the age gate passes. -/
theorem castVote_reduce_age_none (elId cId vid voterName freshId nowIso : String)
    (elections : List Election) (votes : List Vote) (voters : List Voter)
    (now : JsDate) (parse : String → JsDate) (el : Election)
    (hel : elections.find? (fun e => e.id == elId) = some el)
    (hact : el.status = "active")
    (hopen : ¬(now.ms < el.startDate ∨ now.ms > el.endDate))
    (hage : ageGate el voters vid now parse = none) :
    castVote elId cId vid voterName freshId nowIso elections votes voters now parse
      = (if (votes.find? (fun v => v.electionId == elId && v.voterId == vid)).isSome
         then (.alreadyVoted, votes)
         else
           match el.candidates.find? (fun c => c.id == cId) with
           | none => (.invalidCandidate, votes)
           | some c =>
             (.success c.name,
               votes ++ [{ id := freshId, electionId := elId, voterId := vid,
                           voterName := voterName, candidateId := cId,
                           votedAt := nowIso }])) := by
  unfold castVote
  rw [hel]
  simp only [hact, ne_eq, not_true_eq_false, if_false, if_neg hopen, hage]

/-- Claim C7 — for a found, active election, `castVote` fails
`ElectionNotOpen` exactly when the current time lies strictly before
`startDate` or strictly after `endDate`: the `[startDate, endDate]`
window is inclusive at both ends. -/
theorem castVote_window_inclusive (elId cId vid voterName freshId nowIso : String)
    (elections : List Election) (votes : List Vote) (voters : List Voter)
    (now : JsDate) (parse : String → JsDate) (el : Election)
    (hel : elections.find? (fun e => e.id == elId) = some el)
    (hact : el.status = "active") :
    castVote elId cId vid voterName freshId nowIso elections votes voters now parse
        = (.electionNotOpen, votes)
      ↔ (now.ms < el.startDate ∨ now.ms > el.endDate) := by
  constructor
  · intro h
    by_contra hw
    rcases hag : ageGate el voters vid now parse with _ | r
    · rw [castVote_reduce_age_none elId cId vid voterName freshId nowIso elections
        votes voters now parse el hel hact hw hag] at h
      split at h
      · exact absurd h (by simp)
      · split at h <;> simp_all
    · rw [castVote_reduce_age_some elId cId vid voterName freshId nowIso elections
        votes voters now parse el r hel hact hw hag] at h
      have hr : r = .electionNotOpen := (Prod.mk.injEq .. ▸ h).1
      rcases ageGate_some_shape el voters vid now parse r hag with h1 | ⟨a, h1⟩ <;>
        simp_all
  · intro h
    unfold castVote
    rw [hel]
    simp only [hact, ne_eq, not_true_eq_false, if_false, if_pos h]

/-- Witness for C7: with a window `[1000, 1000 + 7·86400000]`, a call
at `t = 0` (one second before the opening instant `1000`) fails
`ElectionNotOpen`, and a call at exactly `t = 1000` passes the gate. -/
theorem castVote_window_inclusive_witness :
    (castVote "e1" "c1" "v1" "Asha" "id9" "ts"
        [⟨"e1", "active", 1000, 1000 + 7 * 86400000, 0, 0, [⟨"c1", "Alice"⟩]⟩]
        [] [] ⟨0, 2026, 9, 12⟩ (fun _ => ⟨0, 0, 0, 0⟩)
      = (.electionNotOpen, []))
    ∧ ¬(castVote "e1" "c1" "v1" "Asha" "id9" "ts"
        [⟨"e1", "active", 1000, 1000 + 7 * 86400000, 0, 0, [⟨"c1", "Alice"⟩]⟩]
        [] [] ⟨1000, 2026, 9, 12⟩ (fun _ => ⟨0, 0, 0, 0⟩)
      = (.electionNotOpen, [])) := by
  constructor
  · exact (castVote_window_inclusive "e1" "c1" "v1" "Asha" "id9" "ts"
      [⟨"e1", "active", 1000, 1000 + 7 * 86400000, 0, 0, [⟨"c1", "Alice"⟩]⟩] [] []
      ⟨0, 2026, 9, 12⟩ (fun _ => ⟨0, 0, 0, 0⟩)
      ⟨"e1", "active", 1000, 1000 + 7 * 86400000, 0, 0, [⟨"c1", "Alice"⟩]⟩
      (by decide) rfl).mpr (by decide)
  · intro h
    exact absurd ((castVote_window_inclusive "e1" "c1" "v1" "Asha" "id9" "ts"
      [⟨"e1", "active", 1000, 1000 + 7 * 86400000, 0, 0, [⟨"c1", "Alice"⟩]⟩] [] []
      ⟨1000, 2026, 9, 12⟩ (fun _ => ⟨0, 0, 0, 0⟩)
      ⟨"e1", "active", 1000, 1000 + 7 * 86400000, 0, 0, [⟨"c1", "Alice"⟩]⟩
      (by decide) rfl).mp h) (by decide)

/-- Claim C6 — when the election carries an age window
(`minAge>0` or `maxAge>0`) and the voter's DOB is on record, `castVote`
fails `AgeRestricted`, surfacing the calendar-aware whole-year age
`computeAge now (parse vr.dob)` (year difference, minus one when the
birthday has not yet been reached this year), exactly when that age is
below a positive `minAge` or above a positive `maxAge`. -/
theorem castVote_age_gate (elId cId vid voterName freshId nowIso : String)
    (elections : List Election) (votes : List Vote) (voters : List Voter)
    (now : JsDate) (parse : String → JsDate) (el : Election) (vr : Voter)
    (hel : elections.find? (fun e => e.id == elId) = some el)
    (hact : el.status = "active")
    (hopen : ¬(now.ms < el.startDate ∨ now.ms > el.endDate))
    (hages : el.minAge > 0 ∨ el.maxAge > 0)
    (hvr : voters.find? (fun v => v.id == vid) = some vr)
    (hdob : vr.dob ≠ "") :
    castVote elId cId vid voterName freshId nowIso elections votes voters now parse
        = (.ageRestricted (computeAge now (parse vr.dob)), votes)
      ↔ (el.minAge > 0 ∧ computeAge now (parse vr.dob) < el.minAge)
        ∨ (el.maxAge > 0 ∧ computeAge now (parse vr.dob) > el.maxAge) := by
  have hgate : ageGate el voters vid now parse
      = (if el.minAge > 0 ∧ computeAge now (parse vr.dob) < el.minAge then
           some (.ageRestricted (computeAge now (parse vr.dob)))
         else if el.maxAge > 0 ∧ computeAge now (parse vr.dob) > el.maxAge then
           some (.ageRestricted (computeAge now (parse vr.dob)))
         else none) := by
    unfold ageGate
    rw [if_pos hages, hvr]
    simp only [if_neg hdob]
  by_cases h1 : el.minAge > 0 ∧ computeAge now (parse vr.dob) < el.minAge
  · rw [if_pos h1] at hgate
    rw [castVote_reduce_age_some elId cId vid voterName freshId nowIso elections
      votes voters now parse el _ hel hact hopen hgate]
    simp [h1]
  · rw [if_neg h1] at hgate
    by_cases h2 : el.maxAge > 0 ∧ computeAge now (parse vr.dob) > el.maxAge
    · rw [if_pos h2] at hgate
      rw [castVote_reduce_age_some elId cId vid voterName freshId nowIso elections
        votes voters now parse el _ hel hact hopen hgate]
      simp [h2]
    · rw [if_neg h2] at hgate
      rw [castVote_reduce_age_none elId cId vid voterName freshId nowIso elections
        votes voters now parse el hel hact hopen hgate]
      simp only [h1, h2, or_self, iff_false]
      intro h
      split at h
      · exact absurd h (by simp)
      · split at h <;> simp_all

/-- Witness for C6: election `minAge = 18`, `maxAge = 0`.  A voter born
2008-10-13 is exactly 17 years and 364 days old on 2026-10-12 (the
birthday is tomorrow), so `castVote` fails `AgeRestricted` with age 17;
a voter born 2008-10-12 turns exactly 18 that day and passes the gate
(months are 0-based as in JavaScript `getMonth()`). -/
theorem castVote_age_gate_witness :
    (castVote "e1" "c1" "v1" "Asha" "id9" "ts"
        [⟨"e1", "active", 0, 100, 18, 0, [⟨"c1", "Alice"⟩]⟩] []
        [⟨"v1", "VTR-000001", "Asha", "2008-10-13", "9876543210", "active", []⟩]
        ⟨50, 2026, 9, 12⟩
        (fun s => if s = "2008-10-13" then ⟨0, 2008, 9, 13⟩ else ⟨0, 2008, 9, 12⟩)
      = (.ageRestricted 17, []))
    ∧ ¬(castVote "e1" "c1" "v2" "Binu" "id9" "ts"
        [⟨"e1", "active", 0, 100, 18, 0, [⟨"c1", "Alice"⟩]⟩] []
        [⟨"v2", "VTR-000002", "Binu", "2008-10-12", "9876543210", "active", []⟩]
        ⟨50, 2026, 9, 12⟩
        (fun s => if s = "2008-10-13" then ⟨0, 2008, 9, 13⟩ else ⟨0, 2008, 9, 12⟩)
      = (.ageRestricted 18, [])) := by
  constructor
  · exact (castVote_age_gate "e1" "c1" "v1" "Asha" "id9" "ts"
      [⟨"e1", "active", 0, 100, 18, 0, [⟨"c1", "Alice"⟩]⟩] []
      [⟨"v1", "VTR-000001", "Asha", "2008-10-13", "9876543210", "active", []⟩]
      ⟨50, 2026, 9, 12⟩
      (fun s => if s = "2008-10-13" then ⟨0, 2008, 9, 13⟩ else ⟨0, 2008, 9, 12⟩)
      ⟨"e1", "active", 0, 100, 18, 0, [⟨"c1", "Alice"⟩]⟩
      ⟨"v1", "VTR-000001", "Asha", "2008-10-13", "9876543210", "active", []⟩
      (by decide) rfl (by decide) (by decide) (by decide) (by decide)).mpr (by decide)
  · intro h
    exact absurd ((castVote_age_gate "e1" "c1" "v2" "Binu" "id9" "ts"
      [⟨"e1", "active", 0, 100, 18, 0, [⟨"c1", "Alice"⟩]⟩] []
      [⟨"v2", "VTR-000002", "Binu", "2008-10-12", "9876543210", "active", []⟩]
      ⟨50, 2026, 9, 12⟩
      (fun s => if s = "2008-10-13" then ⟨0, 2008, 9, 13⟩ else ⟨0, 2008, 9, 12⟩)
      ⟨"e1", "active", 0, 100, 18, 0, [⟨"c1", "Alice"⟩]⟩
      ⟨"v2", "VTR-000002", "Binu", "2008-10-12", "9876543210", "active", []⟩
      (by decide) rfl (by decide) (by decide) (by decide) (by decide)).mp h) (by decide)

/-- The Prop form of the duplicate-vote lookup of line 285. -/
theorem vote_find_isSome_iff (votes : List Vote) (elId vid : String) :
    (votes.find? (fun v => v.electionId == elId && v.voterId == vid)).isSome
      ↔ ∃ v ∈ votes, v.electionId = elId ∧ v.voterId = vid := by
  rw [List.find?_isSome]
  simp [Bool.and_eq_true, beq_iff_eq]

/-- Claim C1 — with the election found, active, open, and the age gate
passing: (a) if a vote for `(elId, vid)` is already stored, `castVote`
fails `AlreadyVoted` for every candidate and leaves the vote store
unchanged; (b) the store changes only by appending one new
`(elId, vid)` record, and only when no such record existed; (c) after a
successful cast, a second `castVote` with the same `(vid, elId)` fails
`AlreadyVoted` regardless of the candidate chosen. -/
theorem castVote_single_ballot (elId cId cId2 vid voterName freshId nowIso
      freshId2 nowIso2 : String)
    (elections : List Election) (votes : List Vote) (voters : List Voter)
    (now now2 : JsDate) (parse parse2 : String → JsDate) (el : Election)
    (hel : elections.find? (fun e => e.id == elId) = some el)
    (hact : el.status = "active")
    (hopen : ¬(now.ms < el.startDate ∨ now.ms > el.endDate))
    (hage : ageGate el voters vid now parse = none) :
    ((∃ v ∈ votes, v.electionId = elId ∧ v.voterId = vid) →
      castVote elId cId vid voterName freshId nowIso elections votes voters now parse
        = (.alreadyVoted, votes))
    ∧ (∀ res votes2,
        castVote elId cId vid voterName freshId nowIso elections votes voters now parse
          = (res, votes2) → votes2 ≠ votes →
        ¬(∃ v ∈ votes, v.electionId = elId ∧ v.voterId = vid)
        ∧ ∃ c, el.candidates.find? (fun c0 => c0.id == cId) = some c
            ∧ res = .success c.name
            ∧ votes2 = votes ++ [{ id := freshId, electionId := elId, voterId := vid,
                                   voterName := voterName, candidateId := cId,
                                   votedAt := nowIso }])
    ∧ (∀ cName2 votes2,
        castVote elId cId vid voterName freshId nowIso elections votes voters now parse
          = (.success cName2, votes2) →
        ¬(now2.ms < el.startDate ∨ now2.ms > el.endDate) →
        ageGate el voters vid now2 parse2 = none →
        castVote elId cId2 vid voterName freshId2 nowIso2 elections votes2 voters
            now2 parse2
          = (.alreadyVoted, votes2)) := by
  have hred := castVote_reduce_age_none elId cId vid voterName freshId nowIso
    elections votes voters now parse el hel hact hopen hage
  refine ⟨?_, ?_, ?_⟩
  · intro hex
    rw [hred, if_pos ((vote_find_isSome_iff votes elId vid).mpr hex)]
  · intro res votes2 heq hne
    rw [hred] at heq
    by_cases hp : (votes.find? (fun v => v.electionId == elId && v.voterId == vid)).isSome
    · rw [if_pos hp] at heq
      exact absurd (Prod.mk.injEq .. ▸ heq).2.symm hne
    · rw [if_neg hp] at heq
      refine ⟨fun hex => hp ((vote_find_isSome_iff votes elId vid).mpr hex), ?_⟩
      rcases hc : el.candidates.find? (fun c0 => c0.id == cId) with _ | c
      · rw [hc] at heq
        dsimp only at heq
        exact absurd (Prod.mk.injEq .. ▸ heq).2.symm hne
      · rw [hc] at heq
        dsimp only at heq
        exact ⟨c, hc, (Prod.mk.injEq .. ▸ heq).1.symm, (Prod.mk.injEq .. ▸ heq).2.symm⟩
  · intro cName2 votes2 heq hopen2 hage2
    rw [hred] at heq
    by_cases hp : (votes.find? (fun v => v.electionId == elId && v.voterId == vid)).isSome
    · rw [if_pos hp] at heq
      exact absurd (Prod.mk.injEq .. ▸ heq).1 (by simp)
    · rw [if_neg hp] at heq
      rcases hc : el.candidates.find? (fun c0 => c0.id == cId) with _ | c
      · rw [hc] at heq
        dsimp only at heq
        exact absurd (Prod.mk.injEq .. ▸ heq).1 (by simp)
      · rw [hc] at heq
        dsimp only at heq
        have hv2 : votes2 = votes ++ [Vote.mk freshId elId vid voterName cId nowIso] :=
          (Prod.mk.injEq .. ▸ heq).2.symm
        subst hv2
        have hred2 := castVote_reduce_age_none elId cId2 vid voterName freshId2 nowIso2
          elections (votes ++ [Vote.mk freshId elId vid voterName cId nowIso]) voters
          now2 parse2 el hel hact hopen2 hage2
        rw [hred2]
        rw [if_pos ((vote_find_isSome_iff _ elId vid).mpr
          ⟨Vote.mk freshId elId vid voterName cId nowIso,
            List.mem_append_right _ (List.mem_singleton_self _), rfl, rfl⟩)]

/-- Witness for C1 part (a): a second vote by voter `v1` in election
`e1` fails `AlreadyVoted` even with a different candidate, and the vote
store is unchanged. -/
theorem castVote_single_ballot_witness :
    castVote "e1" "c2" "v1" "Asha" "id9" "ts2"
        [⟨"e1", "active", 0, 100, 0, 0, [⟨"c1", "Alice"⟩, ⟨"c2", "Bob"⟩]⟩]
        [⟨"id1", "e1", "v1", "Asha", "c1", "ts1"⟩] []
        ⟨50, 2026, 9, 12⟩ (fun _ => ⟨0, 0, 0, 0⟩)
      = (.alreadyVoted, [⟨"id1", "e1", "v1", "Asha", "c1", "ts1"⟩]) :=
  (castVote_single_ballot "e1" "c2" "c2" "v1" "Asha" "id9" "ts2" "id9" "ts2"
    [⟨"e1", "active", 0, 100, 0, 0, [⟨"c1", "Alice"⟩, ⟨"c2", "Bob"⟩]⟩]
    [⟨"id1", "e1", "v1", "Asha", "c1", "ts1"⟩] []
    ⟨50, 2026, 9, 12⟩ ⟨50, 2026, 9, 12⟩ (fun _ => ⟨0, 0, 0, 0⟩) (fun _ => ⟨0, 0, 0, 0⟩)
    ⟨"e1", "active", 0, 100, 0, 0, [⟨"c1", "Alice"⟩, ⟨"c2", "Bob"⟩]⟩
    (by decide) rfl (by decide) (by decide)).1
    ⟨⟨"id1", "e1", "v1", "Asha", "c1", "ts1"⟩, by decide, rfl, rfl⟩

/-! ## Lemmas about the registration pipeline -/

/-- Claim C8 — for any candidate whose name/DOB/phone/descriptor-shape
checks pass, a 128-length descriptor with `(max - min) < 0.02` or
`mean < 0.005` is rejected as `DegenerateFaceCapture` whatever the OTP
store, the proof flag, the stored voters and the drawn ID bytes are:
the guard is evaluated before the OTP, proof and duplicate gates. -/
theorem register_degenerate_guard (cName cDob cPhone : String) (fd : List ℚ)
    (hn : 2 ≤ cName.length) (hd : cDob ≠ "") (hp : 10 ≤ cPhone.length)
    (hl : fd.length = 128)
    (hdeg : listMax fd - listMin fd < 0.02
      ∨ fd.foldl (· + ·) 0 / (fd.length : ℚ) < 0.005) :
    ∀ (proofVerified : Bool) (otpStore : String → Option OtpRec)
      (voters : List Voter) (idBytes : List Nat),
      registerVoter cName cDob cPhone fd proofVerified otpStore voters idBytes
        = .degenerateFace := by
  intro pf store voters bytes
  unfold registerVoter
  rw [if_neg (by push_neg; exact ⟨fun h => by simp [h] at hn, by omega⟩),
    if_neg hd, if_neg (by omega), if_neg (by omega)]
  dsimp only
  rw [if_pos hdeg]

/-- Folding over a constant list whose element is a fixed point of the
step function is the identity. -/
theorem foldl_replicate_fixed {α β : Type} (f : α → β → α) (c : β)
    (hf : ∀ x, f x c = x) : ∀ (n : Nat) (x : α), (List.replicate n c).foldl f x = x
  | 0, x => rfl
  | n + 1, x => by
    rw [List.replicate_succ, List.foldl_cons, hf]
    exact foldl_replicate_fixed f c hf n x

/-- Absorbing a second copy of the right argument into `rmin`. -/
theorem rmin_right_idem (x y : ℚ) : rmin (rmin x y) y = rmin x y := by
  unfold rmin
  split_ifs <;> rfl

/-- Absorbing a second copy of the right argument into `rmax`. -/
theorem rmax_right_idem (x y : ℚ) : rmax (rmax x y) y = rmax x y := by
  unfold rmax
  split_ifs <;> rfl

/-- Folding `rmin` over a constant nonempty list. -/
theorem foldl_rmin_replicate (n : Nat) (x y : ℚ) (h : n ≠ 0) :
    (List.replicate n y).foldl rmin x = rmin x y := by
  obtain ⟨m, rfl⟩ : ∃ m, n = m + 1 := ⟨n - 1, by omega⟩
  induction m generalizing x with
  | zero => rfl
  | succ k ih =>
    rw [List.replicate_succ, List.foldl_cons]
    rw [ih (rmin x y) (by omega), rmin_right_idem]

/-- Folding `rmax` over a constant nonempty list. -/
theorem foldl_rmax_replicate (n : Nat) (x y : ℚ) (h : n ≠ 0) :
    (List.replicate n y).foldl rmax x = rmax x y := by
  obtain ⟨m, rfl⟩ : ∃ m, n = m + 1 := ⟨n - 1, by omega⟩
  induction m generalizing x with
  | zero => rfl
  | succ k ih =>
    rw [List.replicate_succ, List.foldl_cons]
    rw [ih (rmax x y) (by omega), rmax_right_idem]

/-- `listMin` of a value followed by copies of another. -/
theorem listMin_cons_replicate (n : Nat) (x y : ℚ) (h : n ≠ 0) :
    listMin (x :: List.replicate n y) = rmin x y := by
  show (List.replicate n y).foldl rmin x = rmin x y
  exact foldl_rmin_replicate n x y h

/-- `listMax` of a value followed by copies of another. -/
theorem listMax_cons_replicate (n : Nat) (x y : ℚ) (h : n ≠ 0) :
    listMax (x :: List.replicate n y) = rmax x y := by
  show (List.replicate n y).foldl rmax x = rmax x y
  exact foldl_rmax_replicate n x y h

/-- Summing a value followed by zeros. -/
theorem foldl_add_cons_replicate (n : Nat) (x : ℚ) :
    ((x : ℚ) :: List.replicate n (0 : ℚ)).foldl (· + ·) 0 = x := by
  show (List.replicate n (0 : ℚ)).foldl (· + ·) (0 + x) = x
  rw [foldl_replicate_fixed (· + ·) (0 : ℚ) (fun z => add_zero z) n (0 + x), zero_add]

/-- Witness for C8: a descriptor of 128 zeros (max−min = 0 < 0.02) is
rejected as degenerate. -/
theorem register_degenerate_guard_witness :
    registerVoter "Asha Rao" "2000-01-01" "9876543210" (List.replicate 128 0)
        true (fun _ => none) [] [] = .degenerateFace :=
  register_degenerate_guard "Asha Rao" "2000-01-01" "9876543210"
    (List.replicate 128 0) (by decide) (by decide) (by decide) (by simp)
    (Or.inl (by
      have hrep : List.replicate 128 (0 : ℚ) = 0 :: List.replicate 127 0 := rfl
      rw [hrep, listMax_cons_replicate 127 0 0 (by norm_num),
        listMin_cons_replicate 127 0 0 (by norm_num)]
      norm_num [rmin, rmax]))
    true (fun _ => none) [] []

/-- Every nibble renders, after `toUpperCase`, to an uppercase
hexadecimal character. -/
theorem hexUpper_mem : ∀ n < 16, Char.toUpper (hexDigitChar n) ∈ "0123456789ABCDEF".data := by
  decide

/-- Every uppercase hexadecimal character is the rendering of exactly
some nibble. -/
theorem hexUpper_inv : ∀ c ∈ "0123456789ABCDEF".data,
    ∃ n ∈ List.range 16, Char.toUpper (hexDigitChar n) = c := by
  decide

/-- Claim C10 — every minted Voter ID is `VTR-` followed by exactly six
characters from the 16-character uppercase-hexadecimal alphabet
`0-9A-F`, and conversely every such 6-character suffix is attainable
from some draw of the three random bytes: the ID space is exactly the
`16^6` suffixes over that alphabet. -/
theorem mintVoterId_format (bytes : List Nat) (h3 : bytes.length = 3)
    (hb : ∀ b ∈ bytes, b < 256) :
    (∃ suffix : List Char, mintVoterId bytes = "VTR-" ++ String.mk suffix
      ∧ suffix.length = 6 ∧ ∀ c ∈ suffix, c ∈ "0123456789ABCDEF".data)
    ∧ (∀ s : List Char, s.length = 6 → (∀ c ∈ s, c ∈ "0123456789ABCDEF".data) →
        ∃ bs : List Nat, bs.length = 3 ∧ (∀ b ∈ bs, b < 256)
          ∧ mintVoterId bs = "VTR-" ++ String.mk s) := by
  constructor
  · obtain ⟨b0, b1, b2, rfl⟩ := List.length_eq_three.mp h3
    have hb0 := hb b0 (by simp)
    have hb1 := hb b1 (by simp)
    have hb2 := hb b2 (by simp)
    refine ⟨[Char.toUpper (hexDigitChar (b0 / 16)), Char.toUpper (hexDigitChar (b0 % 16)),
        Char.toUpper (hexDigitChar (b1 / 16)), Char.toUpper (hexDigitChar (b1 % 16)),
        Char.toUpper (hexDigitChar (b2 / 16)), Char.toUpper (hexDigitChar (b2 % 16))],
      rfl, rfl, ?_⟩
    intro c hc
    simp only [List.mem_cons, List.not_mem_nil, or_false] at hc
    rcases hc with rfl | rfl | rfl | rfl | rfl | rfl
    · exact hexUpper_mem (b0 / 16) (by omega)
    · exact hexUpper_mem (b0 % 16) (by omega)
    · exact hexUpper_mem (b1 / 16) (by omega)
    · exact hexUpper_mem (b1 % 16) (by omega)
    · exact hexUpper_mem (b2 / 16) (by omega)
    · exact hexUpper_mem (b2 % 16) (by omega)
  · intro s hlen hmem
    rcases s with _ | ⟨c0, s⟩; · simp at hlen
    rcases s with _ | ⟨c1, s⟩; · simp at hlen
    rcases s with _ | ⟨c2, s⟩; · simp at hlen
    rcases s with _ | ⟨c3, s⟩; · simp at hlen
    rcases s with _ | ⟨c4, s⟩; · simp at hlen
    rcases s with _ | ⟨c5, s⟩; · simp at hlen
    rcases s with _ | ⟨c6, s⟩
    swap
    · simp at hlen
    obtain ⟨n0, hr0, hc0⟩ := hexUpper_inv c0 (hmem c0 (by simp))
    obtain ⟨n1, hr1, hc1⟩ := hexUpper_inv c1 (hmem c1 (by simp))
    obtain ⟨n2, hr2, hc2⟩ := hexUpper_inv c2 (hmem c2 (by simp))
    obtain ⟨n3, hr3, hc3⟩ := hexUpper_inv c3 (hmem c3 (by simp))
    obtain ⟨n4, hr4, hc4⟩ := hexUpper_inv c4 (hmem c4 (by simp))
    obtain ⟨n5, hr5, hc5⟩ := hexUpper_inv c5 (hmem c5 (by simp))
    rw [List.mem_range] at hr0 hr1 hr2 hr3 hr4 hr5
    refine ⟨[16 * n0 + n1, 16 * n2 + n3, 16 * n4 + n5], rfl, ?_, ?_⟩
    · intro b hbmem
      simp only [List.mem_cons, List.not_mem_nil, or_false] at hbmem
      rcases hbmem with rfl | rfl | rfl <;> omega
    · have e0 : (16 * n0 + n1) / 16 = n0 := by omega
      have e1 : (16 * n0 + n1) % 16 = n1 := by omega
      have e2 : (16 * n2 + n3) / 16 = n2 := by omega
      have e3 : (16 * n2 + n3) % 16 = n3 := by omega
      have e4 : (16 * n4 + n5) / 16 = n4 := by omega
      have e5 : (16 * n4 + n5) % 16 = n5 := by omega
      simp [mintVoterId, byteToHexChars, e0, e1, e2, e3, e4, e5, hc0, hc1, hc2,
        hc3, hc4, hc5]

/-- Witness for C10 at the concrete byte draw `[0, 171, 255]`
(minting `VTR-00ABFF`). -/
theorem mintVoterId_format_witness :
    ∃ suffix : List Char, mintVoterId [0, 171, 255] = "VTR-" ++ String.mk suffix
      ∧ suffix.length = 6 ∧ ∀ c ∈ suffix, c ∈ "0123456789ABCDEF".data :=
  (mintVoterId_format [0, 171, 255] (by decide) (by decide)).1

/-! ## Correctness of the face-match loop -/

/-- The running minimum never exceeds its starting value. -/
theorem runMinSq_le (cand : List ℚ) :
    ∀ (vs : List Voter) (m : ℚ), runMinSq cand vs m ≤ m
  | [], m => le_refl m
  | v :: vs, m => by
    simp only [runMinSq]
    split_ifs with h
    · exact le_trans (runMinSq_le cand vs _) (le_of_lt h.2)
    · exact runMinSq_le cand vs m

/-- The running minimum is a lower bound on the distances of the
well-formed voters scanned. -/
theorem runMinSq_le_dist (cand : List ℚ) :
    ∀ (vs : List Voter) (m : ℚ) (v : Voter), v ∈ vs → wfFace v = true →
      runMinSq cand vs m ≤ dsq cand v
  | v0 :: vs, m, v, hmem, hwf => by
    simp only [runMinSq]
    rcases List.mem_cons.mp hmem with rfl | hmem2
    · split_ifs with h
      · exact runMinSq_le cand vs _
      · rw [not_and_or] at h
        rcases h with h | h
        · exact absurd hwf h
        · exact le_trans (runMinSq_le cand vs m) (not_lt.mp h)
    · split_ifs with h
      · exact runMinSq_le_dist cand vs _ v hmem2 hwf
      · exact runMinSq_le_dist cand vs m v hmem2 hwf

/-- The running minimum is either the starting value or the distance of
some well-formed scanned voter. -/
theorem runMinSq_mem (cand : List ℚ) :
    ∀ (vs : List Voter) (m : ℚ), runMinSq cand vs m = m
      ∨ ∃ v ∈ vs, wfFace v = true ∧ dsq cand v = runMinSq cand vs m
  | [], m => Or.inl rfl
  | v0 :: vs, m => by
    simp only [runMinSq]
    split_ifs with h
    · rcases runMinSq_mem cand vs (dsq cand v0) with heq | ⟨v, hv, hwf, hd⟩
      · exact Or.inr ⟨v0, List.mem_cons_self v0 vs, h.1, heq.symm⟩
      · exact Or.inr ⟨v, List.mem_cons_of_mem _ hv, hwf, hd⟩
    · rcases runMinSq_mem cand vs m with heq | ⟨v, hv, hwf, hd⟩
      · exact Or.inl heq
      · exact Or.inr ⟨v, List.mem_cons_of_mem _ hv, hwf, hd⟩

/-- Full characterisation of the face-match loop of lines 213–218:
its second component is the running minimum, and its first component is
the first voter achieving that minimum when the minimum both improved
on the start and lies below the threshold — otherwise the accumulator
is kept. -/
theorem faceScan_eq (cand : List ℚ) :
    ∀ (vs : List Voter) (mt0 : Option Voter) (m0 : ℚ),
      (mt0 = none → faceThresholdSq ≤ m0) →
      (∀ u, mt0 = some u → m0 < faceThresholdSq) →
      faceScan cand vs (mt0, m0)
        = ((if runMinSq cand vs m0 < m0 ∧ runMinSq cand vs m0 < faceThresholdSq
            then vs.find? (fun v => wfFace v && (dsq cand v == runMinSq cand vs m0))
            else mt0),
           runMinSq cand vs m0)
  | [], mt0, m0, _, _ => by
    simp [faceScan, runMinSq]
  | v0 :: vs, mt0, m0, inv1, inv2 => by
    by_cases hwf : wfFace v0 = true
    · by_cases hlt : dsq cand v0 < m0
      · have hfs : faceScan cand (v0 :: vs) (mt0, m0)
            = faceScan cand vs
                ((if dsq cand v0 < faceThresholdSq then some v0 else mt0),
                 dsq cand v0) := by
          simp only [faceScan]
          rw [if_pos hwf, if_pos hlt]
        have hrm : runMinSq cand (v0 :: vs) m0 = runMinSq cand vs (dsq cand v0) := by
          simp only [runMinSq]
          rw [if_pos ⟨hwf, hlt⟩]
        rw [hfs, hrm]
        have hle : runMinSq cand vs (dsq cand v0) ≤ dsq cand v0 := runMinSq_le cand vs _
        by_cases hdthr : dsq cand v0 < faceThresholdSq
        · rw [if_pos hdthr]
          rw [faceScan_eq cand vs (some v0) (dsq cand v0)
            (fun hcon => by cases hcon) (fun u _ => hdthr)]
          by_cases himp : runMinSq cand vs (dsq cand v0) < dsq cand v0
          · rw [if_pos ⟨himp, lt_trans himp hdthr⟩,
              if_pos ⟨lt_trans himp hlt, lt_trans himp hdthr⟩]
            rw [List.find?_cons_of_neg _ (by
              simp only [Bool.and_eq_true, beq_iff_eq, not_and]
              exact fun _ => ne_of_gt himp)]
          · have heq2 : runMinSq cand vs (dsq cand v0) = dsq cand v0 :=
              le_antisymm hle (not_lt.mp himp)
            rw [if_neg (fun hc => himp hc.1),
              if_pos ⟨by rw [heq2]; exact hlt, by rw [heq2]; exact hdthr⟩]
            rw [List.find?_cons_of_pos _ (by
              simp only [Bool.and_eq_true, beq_iff_eq]
              exact ⟨hwf, heq2.symm⟩)]
        · rw [if_neg hdthr]
          rw [faceScan_eq cand vs mt0 (dsq cand v0)
            (fun _ => not_lt.mp hdthr)
            (fun u hu => absurd (lt_trans hlt (inv2 u hu)) hdthr)]
          by_cases hthr2 : runMinSq cand vs (dsq cand v0) < faceThresholdSq
          · have h1 : runMinSq cand vs (dsq cand v0) < dsq cand v0 :=
              lt_of_lt_of_le hthr2 (not_lt.mp hdthr)
            rw [if_pos ⟨h1, hthr2⟩, if_pos ⟨lt_trans h1 hlt, hthr2⟩]
            rw [List.find?_cons_of_neg _ (by
              simp only [Bool.and_eq_true, beq_iff_eq, not_and]
              exact fun _ => ne_of_gt h1)]
          · rw [if_neg (fun hc => hthr2 hc.2), if_neg (fun hc => hthr2 hc.2)]
      · have hfs : faceScan cand (v0 :: vs) (mt0, m0) = faceScan cand vs (mt0, m0) := by
          simp only [faceScan]
          rw [if_pos hwf, if_neg hlt]
        have hrm : runMinSq cand (v0 :: vs) m0 = runMinSq cand vs m0 := by
          simp only [runMinSq]
          rw [if_neg (fun hc => hlt hc.2)]
        rw [hfs, hrm, faceScan_eq cand vs mt0 m0 inv1 inv2]
        have hm0le : m0 ≤ dsq cand v0 := not_lt.mp hlt
        by_cases hcond : runMinSq cand vs m0 < m0 ∧ runMinSq cand vs m0 < faceThresholdSq
        · rw [if_pos hcond, if_pos hcond]
          rw [List.find?_cons_of_neg _ (by
            simp only [Bool.and_eq_true, beq_iff_eq, not_and]
            exact fun _ => ne_of_gt (lt_of_lt_of_le hcond.1 hm0le))]
        · rw [if_neg hcond, if_neg hcond]
    · have hfs : faceScan cand (v0 :: vs) (mt0, m0) = faceScan cand vs (mt0, m0) := by
        simp only [faceScan]
        rw [if_neg hwf]
      have hrm : runMinSq cand (v0 :: vs) m0 = runMinSq cand vs m0 := by
        simp only [runMinSq]
        rw [if_neg (fun hc => hwf hc.1)]
      rw [hfs, hrm, faceScan_eq cand vs mt0 m0 inv1 inv2]
      by_cases hcond : runMinSq cand vs m0 < m0 ∧ runMinSq cand vs m0 < faceThresholdSq
      · rw [if_pos hcond, if_pos hcond]
        rw [List.find?_cons_of_neg _ (by simp [hwf])]
      · rw [if_neg hcond, if_neg hcond]

/-- The face-match loop started on the source's initial accumulator
`(null, 999)` computes exactly the spec-side nearest-neighbour match
and the minimum distance. -/
theorem faceScan_top (cand : List ℚ) (voters : List Voter) :
    faceScan cand voters (none, 998001)
      = (nearestFaceMatch cand voters, minFaceDistSq cand voters) := by
  have hthr : faceThresholdSq < 998001 := by norm_num [faceThresholdSq]
  rw [faceScan_eq cand voters none 998001 (fun _ => le_of_lt hthr)
    (fun u hu => by cases hu)]
  unfold nearestFaceMatch minFaceDistSq
  congr 1
  by_cases h : runMinSq cand voters 998001 < faceThresholdSq
  · rw [if_pos ⟨lt_trans h hthr, h⟩, if_pos h]
  · rw [if_neg (fun hc => h hc.2), if_neg h]

/-- Reduction of `registerVoter` through all gates up to the duplicate
checks (lines 187–203 all passing). -/
theorem registerVoter_dup_stage (cName cDob cPhone : String) (fd : List ℚ)
    (proofVerified : Bool) (otpStore : String → Option OtpRec)
    (voters : List Voter) (idBytes : List Nat) (otpRec : OtpRec)
    (hn : 2 ≤ cName.length) (hd : cDob ≠ "") (hp : 10 ≤ cPhone.length)
    (hl : fd.length = 128)
    (hdeg : ¬(listMax fd - listMin fd < 0.02
      ∨ fd.foldl (· + ·) 0 / (fd.length : ℚ) < 0.005))
    (hotp : otpStore cPhone = some otpRec) (hver : otpRec.verified = true)
    (hproof : proofVerified = true) :
    registerVoter cName cDob cPhone fd proofVerified otpStore voters idBytes
      = match voters.find? (fun v => v.phone == cPhone) with
        | some v => .duplicate .phone v.voterId v.name
        | none =>
          match voters.find? (fun v =>
              v.name.toLower == cName.toLower && v.dob == cDob) with
          | some v => .duplicate .nameDob v.voterId v.name
          | none =>
            match (faceScan fd voters (none, 998001)).1 with
            | some v => .duplicate .face v.voterId v.name
            | none => .success (mintVoterId idBytes) cName := by
  unfold registerVoter
  rw [if_neg (by push_neg; exact ⟨fun h => by simp [h] at hn, by omega⟩),
    if_neg hd, if_neg (by omega), if_neg (by omega)]
  dsimp only
  rw [if_neg hdeg, hotp]
  dsimp only
  rw [if_neg (by simp [hver]), if_neg (by simp [hproof])]

/-- Claim C3 — once registration reaches the face check (inputs valid,
non-degenerate, OTP verified, proof verified, no phone or name+DOB
collision), the outcome is governed exactly by the spec-side
nearest-neighbour function: it fails with collision kind `face`
reporting the first voter that attains the minimum distance when the
minimum (squared) distance over the well-formed stored descriptors is
strictly below the (squared) threshold `0.45²`, and succeeds otherwise —
in particular at a minimum of exactly `0.45` it proceeds.  The second
conjunct identifies "minimum below threshold" with the existence of a
well-formed stored descriptor strictly within `0.45`. -/
theorem register_face_nearest (cName cDob cPhone : String) (fd : List ℚ)
    (proofVerified : Bool) (otpStore : String → Option OtpRec)
    (voters : List Voter) (idBytes : List Nat) (otpRec : OtpRec)
    (hn : 2 ≤ cName.length) (hd : cDob ≠ "") (hp : 10 ≤ cPhone.length)
    (hl : fd.length = 128)
    (hdeg : ¬(listMax fd - listMin fd < 0.02
      ∨ fd.foldl (· + ·) 0 / (fd.length : ℚ) < 0.005))
    (hotp : otpStore cPhone = some otpRec) (hver : otpRec.verified = true)
    (hproof : proofVerified = true)
    (hnophone : ∀ v ∈ voters, v.phone ≠ cPhone)
    (hnond : ∀ v ∈ voters, ¬(v.name.toLower = cName.toLower ∧ v.dob = cDob)) :
    (registerVoter cName cDob cPhone fd proofVerified otpStore voters idBytes
      = match nearestFaceMatch fd voters with
        | some v => .duplicate .face v.voterId v.name
        | none => .success (mintVoterId idBytes) cName)
    ∧ (minFaceDistSq fd voters < faceThresholdSq
        ↔ ∃ v ∈ voters, wfFace v = true ∧ dsq fd v < faceThresholdSq) := by
  constructor
  · rw [registerVoter_dup_stage cName cDob cPhone fd proofVerified otpStore voters
      idBytes otpRec hn hd hp hl hdeg hotp hver hproof]
    rw [List.find?_eq_none.mpr (fun v hv => by simpa using hnophone v hv)]
    dsimp only
    rw [List.find?_eq_none.mpr (fun v hv => by simpa using hnond v hv)]
    dsimp only
    rw [faceScan_top fd voters]
  · constructor
    · intro h
      rcases runMinSq_mem fd voters 998001 with heq | ⟨v, hv, hwf, hd2⟩
      · unfold minFaceDistSq at h
        rw [heq] at h
        norm_num [faceThresholdSq] at h
      · refine ⟨v, hv, hwf, ?_⟩
        unfold minFaceDistSq at h
        rw [hd2]
        exact h
    · rintro ⟨v, hv, hwf, hlt⟩
      exact lt_of_le_of_lt (runMinSq_le_dist fd voters 998001 v hv hwf) hlt

/-- Zipping two constant lists of equal length. -/
theorem zip_replicate_self {α β : Type} (n : Nat) (a : α) (b : β) :
    (List.replicate n a).zip (List.replicate n b) = List.replicate n (a, b) := by
  induction n with
  | zero => rfl
  | succ k ih =>
    rw [List.replicate_succ, List.replicate_succ, List.zip_cons_cons, ih,
      ← List.replicate_succ]

/-- Squared distance between two descriptors that differ only in their
first component. -/
theorem euclidSq_cons_replicate (x y : ℚ) (n : Nat) :
    euclidSq (x :: List.replicate n 0) (y :: List.replicate n 0)
      = (x - y) * (x - y) := by
  unfold euclidSq
  rw [if_neg (by simp)]
  rw [List.zip_cons_cons, zip_replicate_self n 0 0, List.foldl_cons]
  rw [foldl_replicate_fixed _ ((0 : ℚ), (0 : ℚ)) (fun s => by norm_num) n _]
  norm_num

/-- The fixture voter `wVoterA` is at squared distance 1 from `wFd`. -/
theorem dsq_wVoterA : dsq wFd wVoterA = 1 := by
  show euclidSq (1 :: List.replicate 127 0) (List.replicate 128 0) = 1
  rw [show List.replicate 128 (0 : ℚ) = 0 :: List.replicate 127 0 from rfl,
    euclidSq_cons_replicate]
  norm_num

/-- The fixture voter `wVoterB` is at squared distance 0.01 from `wFd`. -/
theorem dsq_wVoterB : dsq wFd wVoterB = 0.01 := by
  show euclidSq (1 :: List.replicate 127 0) ((0.9 : ℚ) :: List.replicate 127 0) = 0.01
  rw [euclidSq_cons_replicate]
  norm_num

/-- Both fixture voters carry well-formed descriptors. -/
theorem wfFace_fixtures : wfFace wVoterA = true ∧ wfFace wVoterB = true := by
  constructor <;> simp [wfFace, wVoterA, wVoterB]

/-- The minimum squared distance over the fixture voters is 0.01. -/
theorem minFaceDistSq_fixtures : minFaceDistSq wFd [wVoterA, wVoterB] = 0.01 := by
  unfold minFaceDistSq
  have h1 : runMinSq wFd [wVoterA, wVoterB] 998001 = runMinSq wFd [wVoterB] 1 := by
    show runMinSq wFd [wVoterB]
        (if wfFace wVoterA = true ∧ dsq wFd wVoterA < 998001
         then dsq wFd wVoterA else 998001) = _
    rw [if_pos ⟨wfFace_fixtures.1, by rw [dsq_wVoterA]; norm_num⟩, dsq_wVoterA]
  have h2 : runMinSq wFd [wVoterB] 1 = runMinSq wFd [] 0.01 := by
    show runMinSq wFd []
        (if wfFace wVoterB = true ∧ dsq wFd wVoterB < 1
         then dsq wFd wVoterB else 1) = _
    rw [if_pos ⟨wfFace_fixtures.2, by rw [dsq_wVoterB]; norm_num⟩, dsq_wVoterB]
  rw [h1, h2]
  rfl

/-- The nearest-neighbour match over the fixtures is the inactive
voter `wVoterB`. -/
theorem nearestFaceMatch_fixtures :
    nearestFaceMatch wFd [wVoterA, wVoterB] = some wVoterB := by
  unfold nearestFaceMatch
  rw [minFaceDistSq_fixtures, if_pos (by norm_num [faceThresholdSq])]
  rw [List.find?_cons_of_neg _ (by
    simp only [Bool.and_eq_true, beq_iff_eq, not_and]
    intro _
    rw [dsq_wVoterA]
    norm_num)]
  rw [List.find?_cons_of_pos _ (by
    simp only [Bool.and_eq_true, beq_iff_eq]
    exact ⟨wfFace_fixtures.2, by rw [dsq_wVoterB]⟩)]

/-- The fixture descriptor `wFd` passes the degenerate-capture guard:
max−min = 1 and mean = 1/128. -/
theorem wFd_not_degenerate :
    ¬(listMax wFd - listMin wFd < 0.02
      ∨ wFd.foldl (· + ·) 0 / (wFd.length : ℚ) < 0.005) := by
  have hmin : listMin wFd = 0 := by
    show listMin (1 :: List.replicate 127 0) = 0
    rw [listMin_cons_replicate 127 1 0 (by norm_num)]
    norm_num [rmin]
  have hmax : listMax wFd = 1 := by
    show listMax (1 :: List.replicate 127 0) = 1
    rw [listMax_cons_replicate 127 1 0 (by norm_num)]
    norm_num [rmax]
  have hsum : wFd.foldl (· + ·) 0 = 1 := foldl_add_cons_replicate 127 1
  have hlen : (wFd.length : ℚ) = 128 := by
    show ((1 :: List.replicate 127 (0 : ℚ)).length : ℚ) = 128
    simp
  rw [hmin, hmax, hsum, hlen]
  norm_num

/-- Witness for C3 at the concrete fixtures: registration is rejected
with collision kind `face` against `wVoterB`, the (unique) nearest
stored descriptor, at squared distance 0.01 < 0.2025. -/
theorem register_face_nearest_witness :
    registerVoter "Asha Rao" "2000-01-01" "9876543210" wFd true wStore
        [wVoterA, wVoterB] [0, 0, 0]
      = .duplicate .face "VTR-B" "Bina" := by
  have hmain := (register_face_nearest "Asha Rao" "2000-01-01" "9876543210" wFd
    true wStore [wVoterA, wVoterB] [0, 0, 0] ⟨"100000", 300000, true, 1⟩
    (by decide) (by decide) (by decide) (by simp [wFd])
    wFd_not_degenerate
    (by decide) rfl rfl
    (by
      intro v hv
      rcases List.mem_cons.mp hv with rfl | hv2
      · decide
      rcases List.mem_cons.mp hv2 with rfl | hv3
      · decide
      exact absurd hv3 (List.not_mem_nil v))
    (by
      intro v hv
      rcases List.mem_cons.mp hv with rfl | hv2
      · exact fun hc => absurd hc.2 (by decide)
      rcases List.mem_cons.mp hv2 with rfl | hv3
      · exact fun hc => absurd hc.2 (by decide)
      exact absurd hv3 (List.not_mem_nil v))).1
  rw [hmain, nearestFaceMatch_fixtures]
  rfl

/-- The face-match loop is oblivious to the `status` field: rewriting
every stored voter's status commutes with the scan. -/
theorem faceScan_map_status (cand : List ℚ) (f : Voter → String) :
    ∀ (vs : List Voter) (mt0 : Option Voter) (m0 : ℚ),
      faceScan cand (vs.map (fun v => { v with status := f v }))
          (mt0.map (fun v => { v with status := f v }), m0)
        = ((faceScan cand vs (mt0, m0)).1.map (fun v => { v with status := f v }),
           (faceScan cand vs (mt0, m0)).2)
  | [], mt0, m0 => rfl
  | v0 :: vs, mt0, m0 => by
    simp only [List.map_cons, faceScan]
    have hwfg : wfFace { v0 with status := f v0 } = wfFace v0 := rfl
    have hdg : dsq cand { v0 with status := f v0 } = dsq cand v0 := rfl
    rw [hwfg, hdg]
    by_cases hwf : wfFace v0 = true
    · rw [if_pos hwf, if_pos hwf]
      by_cases hlt : dsq cand v0 < m0
      · rw [if_pos hlt, if_pos hlt]
        have hoptmap :
            (if dsq cand v0 < faceThresholdSq then some { v0 with status := f v0 }
             else mt0.map (fun v => { v with status := f v }))
              = (if dsq cand v0 < faceThresholdSq then some v0 else mt0).map
                  (fun v => { v with status := f v }) := by
          by_cases hth : dsq cand v0 < faceThresholdSq
          · rw [if_pos hth, if_pos hth]
            rfl
          · rw [if_neg hth, if_neg hth]
        rw [hoptmap]
        exact faceScan_map_status cand f vs _ _
      · rw [if_neg hlt, if_neg hlt]
        exact faceScan_map_status cand f vs mt0 m0
    · rw [if_neg hwf, if_neg hwf]
      exact faceScan_map_status cand f vs mt0 m0

/-- Claim C9 — duplicate detection never consults the stored voters'
`status` field.  First conjunct: rewriting every stored voter's status
(in particular setting any of them `inactive`) leaves the registration
response unchanged.  Second conjunct: a stored voter of *any* status
that matches the candidate on phone, on case-insensitive name + DOB, or
by a well-formed face descriptor strictly within the threshold, still
causes the registration to be rejected with `DUPLICATE_VOTER`. -/
theorem register_status_blind :
    (∀ (cName cDob cPhone : String) (fd : List ℚ) (pf : Bool)
        (store : String → Option OtpRec) (voters : List Voter)
        (bytes : List Nat) (f : Voter → String),
      registerVoter cName cDob cPhone fd pf store
          (voters.map (fun v => { v with status := f v })) bytes
        = registerVoter cName cDob cPhone fd pf store voters bytes)
    ∧ (∀ (cName cDob cPhone : String) (fd : List ℚ)
        (store : String → Option OtpRec) (voters : List Voter)
        (bytes : List Nat) (otpRec : OtpRec) (v : Voter),
        2 ≤ cName.length → cDob ≠ "" → 10 ≤ cPhone.length → fd.length = 128 →
        ¬(listMax fd - listMin fd < 0.02
          ∨ fd.foldl (· + ·) 0 / (fd.length : ℚ) < 0.005) →
        store cPhone = some otpRec → otpRec.verified = true →
        v ∈ voters →
        (v.phone = cPhone ∨ (v.name.toLower = cName.toLower ∧ v.dob = cDob)
          ∨ (wfFace v = true ∧ dsq fd v < faceThresholdSq)) →
        ∃ kind eid ename,
          registerVoter cName cDob cPhone fd true store voters bytes
            = .duplicate kind eid ename) := by
  constructor
  · intro cName cDob cPhone fd pf store voters bytes f
    unfold registerVoter
    split_ifs <;> try rfl
    dsimp only
    by_cases hdg : listMax fd - listMin fd < 0.02
        ∨ List.foldl (· + ·) 0 fd / (fd.length : ℚ) < 0.005
    · rw [if_pos hdg, if_pos hdg]
    · rw [if_neg hdg, if_neg hdg]
      cases hst : store cPhone with
      | none => rfl
      | some r =>
        dsimp only
        by_cases hrv : ¬r.verified = true
        · rw [if_pos hrv, if_pos hrv]
        · rw [if_neg hrv, if_neg hrv]
          rw [List.find?_map]
          rw [show ((fun v : Voter => v.phone == cPhone)
              ∘ (fun v => { v with status := f v }))
            = fun v : Voter => v.phone == cPhone from rfl]
          cases hfp : voters.find? (fun v => v.phone == cPhone) with
          | some w => rfl
          | none =>
            dsimp only
            rw [List.find?_map]
            rw [show ((fun v : Voter => v.name.toLower == cName.toLower && v.dob == cDob)
                ∘ (fun v => { v with status := f v }))
              = fun v : Voter => v.name.toLower == cName.toLower && v.dob == cDob from rfl]
            cases hfnd : voters.find? (fun v =>
                v.name.toLower == cName.toLower && v.dob == cDob) with
            | some w => rfl
            | none =>
              dsimp only
              have hmap := faceScan_map_status fd f voters none 998001
              rw [Option.map_none'] at hmap
              rw [hmap]
              cases hfs : (faceScan fd voters (none, 998001)).1 with
              | some u => rfl
              | none => rfl
  · intro cName cDob cPhone fd store voters bytes otpRec v hn hd hp hl hdeg hotp
      hver hv hmatch
    rw [registerVoter_dup_stage cName cDob cPhone fd true store voters bytes otpRec
      hn hd hp hl hdeg hotp hver rfl]
    rcases hfp : voters.find? (fun v0 => v0.phone == cPhone) with _ | w
    · rw [hfp]
      dsimp only
      rcases hfnd : voters.find? (fun v0 =>
          v0.name.toLower == cName.toLower && v0.dob == cDob) with _ | w2
      · rw [hfnd]
        dsimp only
        rcases hmatch with hm | hm | hm
        · exact absurd (List.find?_eq_none.mp hfp v hv) (by simp [hm])
        · exact absurd (List.find?_eq_none.mp hfnd v hv) (by simp [hm.1, hm.2])
        · have hminlt : minFaceDistSq fd voters < faceThresholdSq :=
            lt_of_le_of_lt (runMinSq_le_dist fd voters 998001 v hv hm.1) hm.2
          have hsome : ∃ u, nearestFaceMatch fd voters = some u := by
            unfold nearestFaceMatch
            rw [if_pos hminlt]
            rcases runMinSq_mem fd voters 998001 with heq | ⟨u, hu, hwfu, hdu⟩
            · exfalso
              unfold minFaceDistSq at hminlt
              rw [heq] at hminlt
              norm_num [faceThresholdSq] at hminlt
            · have hiss : (voters.find? (fun v0 =>
                  wfFace v0 && (dsq fd v0 == minFaceDistSq fd voters))).isSome :=
                List.find?_isSome.mpr ⟨u, hu, by simp [hwfu, hdu, minFaceDistSq]⟩
              obtain ⟨u2, hu2⟩ := Option.isSome_iff_exists.mp hiss
              exact ⟨u2, hu2⟩
          obtain ⟨u, hu⟩ := hsome
          rw [faceScan_top fd voters]
          dsimp only
          rw [hu]
          exact ⟨.face, u.voterId, u.name, rfl⟩
      · rw [hfnd]
        exact ⟨.nameDob, w2.voterId, w2.name, rfl⟩
    · rw [hfp]
      exact ⟨.phone, w.voterId, w.name, rfl⟩

/-- Witness for C9: the stored voter `wVoterB` has status `inactive`,
yet a registration matching its phone number is rejected as a
duplicate. -/
theorem register_status_blind_witness :
    ∃ kind eid ename,
      registerVoter "Asha Rao" "2000-01-01" "2222222222" wFd true
          (fun _ => some ⟨"100000", 300000, true, 1⟩) [wVoterA, wVoterB] [0, 0, 0]
        = .duplicate kind eid ename :=
  register_status_blind.2 "Asha Rao" "2000-01-01" "2222222222" wFd
    (fun _ => some ⟨"100000", 300000, true, 1⟩) [wVoterA, wVoterB] [0, 0, 0]
    ⟨"100000", 300000, true, 1⟩ wVoterB
    (by decide) (by decide) (by decide) (by simp [wFd]) wFd_not_degenerate
    rfl rfl (by simp) (Or.inl (by decide))

end VoteSecure
